import Mathlib

/-!
Shallow embedding of `lib/review.py`: the `Review` ORM class with its
process-wide identity map (`Review.all`), validated property setters, and
CRUD operations over the `reviews` table.

Modelling choices, each traceable to the source:
* Python values flowing into the three business fields are modelled by
  `Value` (an int, a string, or `None`), since the setters dispatch on
  `isinstance`.
* The database is a list of `Row`s; SQLite's store-generated
  `INTEGER PRIMARY KEY` / `lastrowid` is modelled as `max existing id + 1`.
* Object identity ("the same object reference") is modelled by a heap:
  references are `Nat` addresses into an association list, and attribute
  assignment mutates the heap entry.  The class-level dictionary
  `Review.all` is an association list from row id to reference.
* `Employee.find_by_id` is an external collaborator (its module is not part
  of this file's source); it is modelled by the set `emps` of existing
  employee ids carried in the state, exactly as the spec describes it:
  lookup succeeds iff the id is present.
* A raised Python exception is an `Except.error` carrying the message; each
  operation also returns the state as of the raise point, because `delete`
  performs its row deletion before the map eviction that can raise.
-/

namespace ORMLab

/-- A Python value that can be assigned to a Review field: an `int`, a
`str`, or `None` (any other type behaves like `vNone` for the
`isinstance` checks involved, so these three constructors suffice). -/
inductive Value where
  | vInt (n : Int)
  | vStr (s : String)
  | vNone
deriving Repr, DecidableEq

/-- The in-memory attributes of one `Review` instance: `self.id` (`None`
before persistence) and the three validated fields. -/
structure ReviewObj where
  id : Option Nat
  year : Value
  summ : Value
  employee_id : Value
deriving Repr, DecidableEq

/-- One row of the `reviews` table: `(id, year, summary, employee_id)`. -/
structure Row where
  id : Nat
  year : Value
  summ : Value
  employee_id : Value
deriving Repr, DecidableEq

/-- The whole mutable world: the `reviews` table, the object heap (reference
address to object), the allocator for fresh references, the class-level
dictionary `Review.all` (row id to reference), and the external set of
existing employee ids consulted by `Employee.find_by_id`. -/
structure State where
  rows : List Row
  heap : List (Nat × ReviewObj)
  nextRef : Nat
  allMap : List (Nat × Nat)
  emps : List Int
deriving Repr, DecidableEq

/-- Association-list lookup keyed by `Nat`, used for both the heap and the
identity map.  Insertion is modelled by prepending, so the first hit is the
current binding. -/
def assocFind (k : Nat) : List (Nat × β) → Option β
  | [] => none
  | (k', v) :: l => if k' = k then some v else assocFind k l

/-- `SELECT * FROM reviews WHERE id = ? ... fetchone()`: the first row whose
primary key equals `i`. -/
def findRow (i : Nat) : List Row → Option Row
  | [] => none
  | rw :: l => if rw.id = i then some rw else findRow i l

/-- Validity test of the `year` setter: `isinstance(year, int) and year >= 2000`. -/
def validYear : Value → Bool
  | .vInt n => decide (2000 ≤ n)
  | _ => false

/-- Validity test of the `summary` setter:
`isinstance(summary, str) and len(summary) > 0`. -/
def validSumm : Value → Bool
  | .vStr str => decide (0 < str.length)
  | _ => false

/-- Validity test of the `employee_id` setter:
`isinstance(employee_id, int) and Employee.find_by_id(employee_id)`. -/
def validEmp (emps : List Int) : Value → Bool
  | .vInt n => emps.contains n
  | _ => false

/-- The `year` property setter: store the value, or raise `ValueError`. -/
def setYear (v : Value) (o : ReviewObj) : Except String ReviewObj :=
  if validYear v then .ok { o with year := v }
  else .error "Year must be an integer >= 2000"

/-- The `summary` property setter: store the value, or raise `ValueError`. -/
def setSumm (v : Value) (o : ReviewObj) : Except String ReviewObj :=
  if validSumm v then .ok { o with summ := v }
  else .error "Summary must be a non-empty string"

/-- The `employee_id` property setter: store the value, or raise
`ValueError`.  The referential lookup consults the current employee set. -/
def setEmp (emps : List Int) (v : Value) (o : ReviewObj) : Except String ReviewObj :=
  if validEmp emps v then .ok { o with employee_id := v }
  else .error "employee_id must reference an existing Employee id"

/-- Read a reference from the heap. -/
def heapGet (s : State) (r : Nat) : Option ReviewObj := assocFind r s.heap

/-- Overwrite the object stored at reference `r` (attribute mutation). -/
def heapSet (s : State) (r : Nat) (o : ReviewObj) : State :=
  { s with heap := (r, o) :: s.heap }

/-- `Review.__init__(self, year, summary, employee_id, id=None)`: sets
`self.id` directly, then the three fields through their setters in source
order; the first invalid field raises and no object escapes. -/
def Review.init (year summ employee_id : Value) (id : Option Nat) (emps : List Int) :
    Except String ReviewObj := do
  let o : ReviewObj := ⟨id, .vNone, .vNone, .vNone⟩
  let o ← setYear year o
  let o ← setSumm summ o
  let o ← setEmp emps employee_id o
  return o

/-- Attribute assignment `obj.year = v` on a live object: runs the setter
and, on success, commits the new value to the heap; on `ValueError` the heap
is untouched (the raise happens before the assignment). -/
def assignYear (r : Nat) (v : Value) (s : State) : Except String Unit × State :=
  match heapGet s r with
  | none => (.error "AttributeError", s)
  | some o =>
    match setYear v o with
    | .ok o' => (.ok (), heapSet s r o')
    | .error e => (.error e, s)

/-- Attribute assignment `obj.summary = v` on a live object. -/
def assignSumm (r : Nat) (v : Value) (s : State) : Except String Unit × State :=
  match heapGet s r with
  | none => (.error "AttributeError", s)
  | some o =>
    match setSumm v o with
    | .ok o' => (.ok (), heapSet s r o')
    | .error e => (.error e, s)

/-- Attribute assignment `obj.employee_id = v` on a live object. -/
def assignEmp (r : Nat) (v : Value) (s : State) : Except String Unit × State :=
  match heapGet s r with
  | none => (.error "AttributeError", s)
  | some o =>
    match setEmp s.emps v o with
    | .ok o' => (.ok (), heapSet s r o')
    | .error e => (.error e, s)

/-- The largest primary key present in the table (0 when empty). -/
def maxRowId (rows : List Row) : Nat := rows.foldr (fun rw m => max rw.id m) 0

/-- The store-generated primary key SQLite assigns to the next inserted row
(`INTEGER PRIMARY KEY` default: one more than the largest existing rowid). -/
def freshRowId (s : State) : Nat := maxRowId s.rows + 1

/-- `Review.save(self)`: `INSERT` a new row from the current field values,
set `self.id` from `lastrowid`, and register `self` in `Review.all` under
that id. -/
def Review.save (r : Nat) (s : State) : Except String Unit × State :=
  match heapGet s r with
  | none => (.error "AttributeError", s)
  | some o =>
    let n := freshRowId s
    let s1 : State := { s with rows := s.rows ++ [⟨n, o.year, o.summ, o.employee_id⟩] }
    let s2 := heapSet s1 r { o with id := some n }
    (.ok (), { s2 with allMap := (n, r) :: s2.allMap })

/-- `Review.create(cls, year, summary, employee_id)`: construct a new
instance (validating every field) and `save` it; returns the live object. -/
def Review.create (year summ employee_id : Value) (s : State) : Except String Nat × State :=
  match Review.init year summ employee_id none s.emps with
  | .error e => (.error e, s)
  | .ok o =>
    let r := s.nextRef
    let s1 : State := { s with heap := (r, o) :: s.heap, nextRef := r + 1 }
    match Review.save r s1 with
    | (.ok _, s2) => (.ok r, s2)
    | (.error e, s2) => (.error e, s2)

/-- `Review.instance_from_db(cls, row)`: if `row[0]` is already a key of
`Review.all`, update that instance's three fields in place (each assignment
goes through the property setter) and return the same reference; otherwise
construct a fresh instance from the row, set its id, register it, and
return it. -/
def Review.instance_from_db (row : Row) (s : State) : Except String Nat × State :=
  match assocFind row.id s.allMap with
  | some r =>
    match assignYear r row.year s with
    | (.error e, s1) => (.error e, s1)
    | (.ok _, s1) =>
      match assignSumm r row.summ s1 with
      | (.error e, s2) => (.error e, s2)
      | (.ok _, s2) =>
        match assignEmp r row.employee_id s2 with
        | (.error e, s3) => (.error e, s3)
        | (.ok _, s3) => (.ok r, s3)
  | none =>
    match Review.init row.year row.summ row.employee_id none s.emps with
    | .error e => (.error e, s)
    | .ok o =>
      let r := s.nextRef
      (.ok r, { s with heap := (r, { o with id := some row.id }) :: s.heap,
                       nextRef := r + 1,
                       allMap := (row.id, r) :: s.allMap })

/-- `Review.find_by_id(cls, id)`: fetch the row with that primary key and
reify it through `instance_from_db`, or return `None` when no row matches. -/
def Review.find_by_id (i : Nat) (s : State) : Except String (Option Nat) × State :=
  match findRow i s.rows with
  | some row =>
    match Review.instance_from_db row s with
    | (.ok r, s') => (.ok (some r), s')
    | (.error e, s') => (.error e, s')
  | none => (.ok none, s)

/-- `Review.update(self)`: `UPDATE reviews SET ... WHERE id = ?` with
`self.id` as the bound parameter; a `NULL` id matches no row (SQL
three-valued equality), so the table is untouched in that case. -/
def Review.update (r : Nat) (s : State) : Except String Unit × State :=
  match heapGet s r with
  | none => (.error "AttributeError", s)
  | some o =>
    (.ok (), { s with rows := s.rows.map (fun rw =>
        if some rw.id = o.id then { rw with year := o.year, summ := o.summ,
                                            employee_id := o.employee_id }
        else rw) })

/-- `Review.delete(self)`: `DELETE FROM reviews WHERE id = ?` (a `NULL` id
matches no row), then `del Review.all[self.id]` — a `KeyError` when the key
is absent, raised after the row deletion already committed — and finally
`self.id = None`. -/
def Review.delete (r : Nat) (s : State) : Except String Unit × State :=
  match heapGet s r with
  | none => (.error "AttributeError", s)
  | some o =>
    let s1 : State := { s with rows := s.rows.filter (fun rw => !(decide (some rw.id = o.id))) }
    match o.id with
    | none => (.error "KeyError", s1)
    | some n =>
      match assocFind n s1.allMap with
      | none => (.error "KeyError", s1)
      | some _ =>
        let s2 : State := { s1 with allMap := s1.allMap.filter (fun p => !(decide (p.1 = n))) }
        (.ok (), heapSet s2 r { o with id := none })

/-- Helper of `get_all`: the list comprehension
`[cls.instance_from_db(row) for row in rows]`, evaluated left to right; the
first raising element propagates. -/
def getAllAux : List Row → State → Except String (List Nat) × State
  | [], s => (.ok [], s)
  | row :: rest, s =>
    match Review.instance_from_db row s with
    | (.error e, s') => (.error e, s')
    | (.ok r, s') =>
      match getAllAux rest s' with
      | (.error e, s2) => (.error e, s2)
      | (.ok l, s2) => (.ok (r :: l), s2)

/-- `Review.get_all(cls)`: fetch every row of the table and map each through
`instance_from_db`. -/
def Review.get_all (s : State) : Except String (List Nat) × State :=
  getAllAux s.rows s

/-! ### Well-formedness and invariant predicates -/

/-- Every reference stored in the identity map denotes a live heap object.
This holds for any state reachable through the operations above (entries are
only ever inserted together with their heap object). -/
abbrev WFmap (s : State) : Prop :=
  ∀ p ∈ s.allMap, (heapGet s p.2).isSome = true

/-- The reference `r` denotes a live object whose three business fields all
satisfy the setter constraints with respect to the employee set `E`. -/
def goodRef (E : List Int) (s : State) (r : Nat) : Prop :=
  ∃ o, heapGet s r = some o ∧ validYear o.year = true ∧ validSumm o.summ = true ∧
    validEmp E o.employee_id = true

/-! ### Concrete example states (used to instantiate the universal theorems) -/

/-- Fresh world: empty table, empty heap and map, one employee with id 1. -/
def exEmpty : State := State.mk [] [] 0 [] [1]

/-- One review persisted through `create`: row id 1, live object at
reference 0, registered in the identity map, employee 1 exists. -/
def exPersisted : State :=
  State.mk [Row.mk 1 (.vInt 2023) (.vStr "ok") (.vInt 1)]
    [(0, ReviewObj.mk (some 1) (.vInt 2023) (.vStr "ok") (.vInt 1))] 1 [(1, 0)] [1]

/-- A table row with id 5 that has never been reified (empty heap/map). -/
def exRowOnly : State := State.mk [Row.mk 5 (.vInt 2023) (.vStr "ok") (.vInt 1)] [] 0 [] [1]

/-- A table whose single row stores year 1999, below the setter's bound
(possible because the schema itself has no CHECK constraint). -/
def exBadYearRow : State :=
  State.mk [Row.mk 1 (.vInt 1999) (.vStr "ok") (.vInt 1)] [] 0 [] [1]

/-- `exPersisted` after the referenced employee (id 1) was deleted from the
employees table: the review row and its cached object are untouched. -/
def exEmpDeleted : State :=
  State.mk [Row.mk 1 (.vInt 2023) (.vStr "ok") (.vInt 1)]
    [(0, ReviewObj.mk (some 1) (.vInt 2023) (.vStr "ok") (.vInt 1))] 1 [(1, 0)] []

/-- A live object claiming id 5 while the identity map has no entry for 5
(e.g. an object built by hand rather than through `instance_from_db`). -/
def exDetached : State :=
  State.mk [] [(0, ReviewObj.mk (some 5) (.vInt 2023) (.vStr "ok") (.vInt 1))] 1 [] [1]

/-- A live object whose `id` is `None` (never saved, or already deleted),
next to an unrelated persisted row. -/
def exNullId : State :=
  State.mk [Row.mk 1 (.vInt 2023) (.vStr "ok") (.vInt 1)]
    [(0, ReviewObj.mk none (.vInt 2030) (.vStr "x") (.vInt 1))] 1 [] [1]

/-! ### Association-list and row-list lemmas -/

@[simp] theorem assocFind_nil (k : Nat) : assocFind k ([] : List (Nat × β)) = none := rfl

@[simp] theorem assocFind_cons (k k' : Nat) (v : β) (l : List (Nat × β)) :
    assocFind k ((k', v) :: l) = if k' = k then some v else assocFind k l := rfl

@[simp] theorem findRow_nil (i : Nat) : findRow i [] = none := rfl

@[simp] theorem findRow_cons (i : Nat) (rw : Row) (l : List Row) :
    findRow i (rw :: l) = if rw.id = i then some rw else findRow i l := rfl

@[simp] theorem heapSet_rows (s : State) (r : Nat) (o : ReviewObj) :
    (heapSet s r o).rows = s.rows := rfl

@[simp] theorem heapSet_emps (s : State) (r : Nat) (o : ReviewObj) :
    (heapSet s r o).emps = s.emps := rfl

@[simp] theorem heapSet_allMap (s : State) (r : Nat) (o : ReviewObj) :
    (heapSet s r o).allMap = s.allMap := rfl

@[simp] theorem heapSet_nextRef (s : State) (r : Nat) (o : ReviewObj) :
    (heapSet s r o).nextRef = s.nextRef := rfl

@[simp] theorem heapGet_heapSet_self (s : State) (r : Nat) (o : ReviewObj) :
    heapGet (heapSet s r o) r = some o := by
  simp [heapGet, heapSet]

theorem heapGet_heapSet_ne (s : State) (r r' : Nat) (o : ReviewObj) (h : r ≠ r') :
    heapGet (heapSet s r o) r' = heapGet s r' := by
  simp [heapGet, heapSet, h]

theorem assocFind_mem {k : Nat} {v : β} {l : List (Nat × β)}
    (h : assocFind k l = some v) : (k, v) ∈ l := by
  induction l with
  | nil => simp at h
  | cons p l ih =>
    obtain ⟨k', v'⟩ := p
    by_cases hk : k' = k
    · subst hk
      simp at h
      simp [h]
    · simp [hk] at h
      exact List.mem_cons_of_mem _ (ih h)

theorem assocFind_cons_isSome {k k' : Nat} {v : β} {l : List (Nat × β)}
    (h : (assocFind k l).isSome = true) : (assocFind k ((k', v) :: l)).isSome = true := by
  by_cases hk : k' = k <;> simp [hk, h]

theorem assocFind_filter_self (n : Nat) (l : List (Nat × β)) :
    assocFind n (l.filter (fun p => !(decide (p.1 = n)))) = none := by
  induction l with
  | nil => rfl
  | cons p l ih =>
    obtain ⟨k, v⟩ := p
    by_cases hk : k = n
    · simpa [hk] using ih
    · simp [hk, ih]

theorem findRow_eq_id {i : Nat} {l : List Row} {rw : Row}
    (h : findRow i l = some rw) : rw.id = i := by
  induction l with
  | nil => simp at h
  | cons rw' l ih =>
    by_cases hi : rw'.id = i
    · simp [hi] at h
      subst h
      exact hi
    · simp [hi] at h
      exact ih h

@[simp] theorem maxRowId_nil : maxRowId [] = 0 := rfl

@[simp] theorem maxRowId_cons (rw : Row) (l : List Row) :
    maxRowId (rw :: l) = max rw.id (maxRowId l) := rfl

theorem findRow_gt_none {i : Nat} {l : List Row} (h : maxRowId l < i) :
    findRow i l = none := by
  induction l with
  | nil => rfl
  | cons rw l ih =>
    simp at h
    have hne : rw.id ≠ i := by omega
    simp [hne, ih h.2]

theorem findRow_isSome_le {i : Nat} {l : List Row}
    (h : (findRow i l).isSome = true) : i ≤ maxRowId l := by
  induction l with
  | nil => simp [findRow] at h
  | cons rw l ih =>
    by_cases hi : rw.id = i
    · rw [maxRowId_cons, ← hi]
      exact Nat.le_max_left _ _
    · simp [hi] at h
      have := ih h
      simp
      omega

theorem findRow_append_none {i : Nat} {l₁ : List Row} (l₂ : List Row)
    (h : findRow i l₁ = none) : findRow i (l₁ ++ l₂) = findRow i l₂ := by
  induction l₁ with
  | nil => rfl
  | cons rw l ih =>
    by_cases hi : rw.id = i
    · simp [hi] at h
    · simp [hi] at h ⊢
      exact ih h

theorem findRow_filter_delete (n : Nat) (l : List Row) :
    findRow n (l.filter (fun rw => !(decide (rw.id = n)))) = none := by
  induction l with
  | nil => rfl
  | cons rw l ih =>
    by_cases hi : rw.id = n
    · simpa [hi] using ih
    · simp [hi, ih]

theorem findRow_map_of_id_eq {i : Nat} (f : Row → Row) (l : List Row)
    (hf : ∀ rw, (f rw).id = rw.id) :
    findRow i (l.map f) = (findRow i l).map f := by
  induction l with
  | nil => rfl
  | cons rw l ih =>
    by_cases hi : rw.id = i
    · simp [hf, hi]
    · simp [hf, hi, ih]

theorem heapGet_isSome_heapSet {s : State} {r' : Nat} (r : Nat) (o : ReviewObj)
    (h : (heapGet s r').isSome = true) : (heapGet (heapSet s r o) r').isSome = true := by
  by_cases hr : r = r'
  · subst hr
    simp
  · rw [heapGet_heapSet_ne s r r' o hr]
    exact h

/-! ### Behaviour of `instance_from_db` on a row whose values pass the setters -/

/-- Master lemma: reifying a row whose three values satisfy the setter
constraints always succeeds; it leaves the table and the employee set
untouched, keeps the identity map well-formed, leaves the map binding the
row's id to the returned reference, makes the returned object carry exactly
the row's field values, preserves goodness of every live reference, and —
when the id was already resident — returns the resident reference without
allocating and without touching the map. -/
theorem instance_from_db_ok (s : State) (row : Row)
    (hwf : WFmap s) (hy : validYear row.year = true) (hsm : validSumm row.summ = true)
    (he : validEmp s.emps row.employee_id = true) :
    ∃ r s', Review.instance_from_db row s = (.ok r, s') ∧
      s'.rows = s.rows ∧ s'.emps = s.emps ∧ WFmap s' ∧
      assocFind row.id s'.allMap = some r ∧
      (∃ o', heapGet s' r = some o' ∧ o'.year = row.year ∧ o'.summ = row.summ ∧
        o'.employee_id = row.employee_id) ∧
      (∀ r', goodRef s.emps s r' → goodRef s.emps s' r') ∧
      (∀ r₀, assocFind row.id s.allMap = some r₀ →
        r₀ = r ∧ s'.nextRef = s.nextRef ∧ s'.allMap = s.allMap) := by
  cases hmap : assocFind row.id s.allMap with
  | some r =>
    have hmem := assocFind_mem hmap
    have hsome := hwf _ hmem
    obtain ⟨o, ho⟩ := Option.isSome_iff_exists.mp hsome
    refine ⟨r, heapSet (heapSet (heapSet s r (ReviewObj.mk o.id row.year o.summ o.employee_id))
        r (ReviewObj.mk o.id row.year row.summ o.employee_id))
        r (ReviewObj.mk o.id row.year row.summ row.employee_id), ?_, ?_, ?_, ?_, ?_, ?_, ?_, ?_⟩
    · simp [Review.instance_from_db, hmap, assignYear, assignSumm, assignEmp, ho,
        setYear, setSumm, setEmp, hy, hsm, he]
    · simp
    · simp
    · intro p hp
      simp only [heapSet_allMap] at hp
      exact heapGet_isSome_heapSet _ _ (heapGet_isSome_heapSet _ _
        (heapGet_isSome_heapSet _ _ (hwf p hp)))
    · simpa using hmap
    · exact ⟨_, heapGet_heapSet_self _ _ _, rfl, rfl, rfl⟩
    · intro r' hg
      obtain ⟨ob, hob, g1, g2, g3⟩ := hg
      by_cases hr : r = r'
      · subst hr
        exact ⟨_, heapGet_heapSet_self _ _ _, hy, hsm, by simpa using he⟩
      · refine ⟨ob, ?_, g1, g2, by simpa using g3⟩
        rw [heapGet_heapSet_ne _ _ _ _ hr, heapGet_heapSet_ne _ _ _ _ hr,
          heapGet_heapSet_ne _ _ _ _ hr]
        exact hob
    · intro r₀ h₀
      exact ⟨(Option.some.inj h₀).symm, by simp, by simp⟩
  | none =>
    refine ⟨s.nextRef,
      { s with heap := (s.nextRef, ReviewObj.mk (some row.id) row.year row.summ row.employee_id)
                 :: s.heap,
               nextRef := s.nextRef + 1,
               allMap := (row.id, s.nextRef) :: s.allMap }, ?_, ?_, ?_, ?_, ?_, ?_, ?_, ?_⟩
    · simp [Review.instance_from_db, hmap, Review.init, setYear, setSumm, setEmp,
        hy, hsm, he, bind, Except.bind, pure, Except.pure]
    · simp
    · simp
    · intro p hp
      rcases List.mem_cons.mp hp with hp | hp
      · subst hp
        simp [heapGet]
      · have := hwf p hp
        simp only [heapGet] at this ⊢
        exact assocFind_cons_isSome this
    · simp
    · exact ⟨ReviewObj.mk (some row.id) row.year row.summ row.employee_id,
        by simp [heapGet], rfl, rfl, rfl⟩
    · intro r' hg
      obtain ⟨ob, hob, g1, g2, g3⟩ := hg
      by_cases hr : s.nextRef = r'
      · subst hr
        exact ⟨ReviewObj.mk (some row.id) row.year row.summ row.employee_id,
          by simp [heapGet], hy, hsm, by simpa using he⟩
      · refine ⟨ob, ?_, g1, g2, by simpa using g3⟩
        simpa [heapGet, hr] using hob
    · intro r₀ h₀
      simp at h₀

/-! ### Claim theorems -/

/-- C10: calling `update()` on a Review whose `id` is `None` raises no error
and leaves the table entirely unchanged — the `WHERE id = ?` clause bound to
`NULL` matches no row, so every row keeps its prior values and no new row
appears (the whole state is returned unchanged). -/
theorem C10_update_null_id_noop (s : State) (r : Nat) (o : ReviewObj)
    (hr : heapGet s r = some o) (hid : o.id = none) :
    Review.update r s = (.ok (), s) := by
  simp [Review.update, hr, hid]

/-- Witness for C10 at a concrete state: an unsaved object (id `None`) next
to one persisted row; `update()` succeeds and changes nothing. -/
theorem C10_update_null_id_noop_witness :
    Review.update 0 exNullId = (.ok (), exNullId) :=
  C10_update_null_id_noop exNullId 0
    (ReviewObj.mk none (.vInt 2030) (.vStr "x") (.vInt 1)) rfl rfl

/-- C9: `delete()` on a Review whose id has no entry in the identity map
(id already `None` after a prior delete, or an id never registered) raises a
`KeyError` at the map-eviction step — after the `DELETE` statement already
ran — rather than completing silently. -/
theorem C9_delete_unmapped_raises (s : State) (r : Nat) (o : ReviewObj)
    (hr : heapGet s r = some o)
    (hmap : ∀ n, o.id = some n → assocFind n s.allMap = none) :
    Review.delete r s =
      (.error "KeyError",
        { s with rows := s.rows.filter (fun rw => !(decide (some rw.id = o.id))) }) := by
  unfold Review.delete
  rw [hr]
  cases hid : o.id with
  | none => simp [hid]
  | some n => simp [hid, hmap n hid]

/-- Witness for C9 at a concrete state: an object claiming id 5 with no map
entry for 5; `delete()` raises `KeyError`. -/
theorem C9_delete_unmapped_raises_witness :
    Review.delete 0 exDetached =
      (.error "KeyError",
        { exDetached with
            rows := exDetached.rows.filter (fun rw =>
              !(decide (some rw.id = (ReviewObj.mk (some 5) (.vInt 2023) (.vStr "ok")
                (.vInt 1)).id))) }) :=
  C9_delete_unmapped_raises exDetached 0
    (ReviewObj.mk (some 5) (.vInt 2023) (.vStr "ok") (.vInt 1)) rfl
    (fun n h => by simp at h; subst h; rfl)

/-- C2: every invalid assignment is rejected atomically.  For a year that is
not an int `≥ 2000`, a summary that is not a non-empty string, or an
employee id not resolvable through `Employee.find_by_id`: the setter raises
`ValueError` and returns the state unchanged (the field keeps its prior
value), and `create` (constructor + save) raises with the state unchanged,
so no object escapes and no row is written. -/
theorem C2_invalid_rejected (s : State) (r : Nat) (o : ReviewObj) (v : Value)
    (hr : heapGet s r = some o) :
    (validYear v = false →
      assignYear r v s = (.error "Year must be an integer >= 2000", s)) ∧
    (validSumm v = false →
      assignSumm r v s = (.error "Summary must be a non-empty string", s)) ∧
    (validEmp s.emps v = false →
      assignEmp r v s = (.error "employee_id must reference an existing Employee id", s)) ∧
    (∀ y sm e : Value, (validYear y && validSumm sm && validEmp s.emps e) = false →
      ∃ msg, Review.create y sm e s = (.error msg, s)) := by
  refine ⟨?_, ?_, ?_, ?_⟩
  · intro hv
    simp [assignYear, hr, setYear, hv]
  · intro hv
    simp [assignSumm, hr, setSumm, hv]
  · intro hv
    simp [assignEmp, hr, setEmp, hv]
  · intro y sm e hv
    cases hy : validYear y with
    | false =>
      exact ⟨"Year must be an integer >= 2000",
        by simp [Review.create, Review.init, setYear, hy, bind, Except.bind]⟩
    | true =>
      cases hsm : validSumm sm with
      | false =>
        exact ⟨"Summary must be a non-empty string",
          by simp [Review.create, Review.init, setYear, setSumm, hy, hsm, bind, Except.bind]⟩
      | true =>
        cases he : validEmp s.emps e with
        | false =>
          exact ⟨"employee_id must reference an existing Employee id",
            by simp [Review.create, Review.init, setYear, setSumm, setEmp, hy, hsm, he,
              bind, Except.bind]⟩
        | true =>
          rw [hy, hsm, he] at hv
          simp at hv

/-- Witness for C2 at a concrete state: assigning `None` to each field of
the persisted object fails with the state unchanged, and
`create(1999, "ok", 1)` fails with the state unchanged. -/
theorem C2_invalid_rejected_witness :
    assignYear 0 .vNone exPersisted =
      (.error "Year must be an integer >= 2000", exPersisted) ∧
    (∃ msg, Review.create (.vInt 1999) (.vStr "ok") (.vInt 1) exPersisted =
      (.error msg, exPersisted)) := by
  have h := C2_invalid_rejected exPersisted 0
    (ReviewObj.mk (some 1) (.vInt 2023) (.vStr "ok") (.vInt 1)) .vNone rfl
  exact ⟨h.1 rfl, h.2.2.2 (.vInt 1999) (.vStr "ok") (.vInt 1) (by decide)⟩

/-- C5: for a persisted Review whose id is a key of the identity map,
`delete()` removes its row(s) — so `find_by_id(old_id)` then returns the
`None` sentinel — sets the object's `id` to `None`, and evicts the id from
the identity map. -/
theorem C5_delete_postcondition (s : State) (r : Nat) (o : ReviewObj) (n : Nat)
    (hr : heapGet s r = some o) (hid : o.id = some n)
    (hm : (assocFind n s.allMap).isSome = true) :
    ∃ s', Review.delete r s = (.ok (), s') ∧
      (Review.find_by_id n s').1 = .ok none ∧
      heapGet s' r = some (ReviewObj.mk none o.year o.summ o.employee_id) ∧
      assocFind n s'.allMap = none := by
  obtain ⟨w, hw⟩ := Option.isSome_iff_exists.mp hm
  refine ⟨heapSet
      (State.mk (s.rows.filter (fun rw => !(decide (rw.id = n)))) s.heap s.nextRef
        (s.allMap.filter (fun p => !(decide (p.1 = n)))) s.emps) r
      (ReviewObj.mk none o.year o.summ o.employee_id), ?_, ?_, ?_, ?_⟩
  · unfold Review.delete
    rw [hr]
    simp [hid, hw, heapSet]
  · simp [Review.find_by_id, findRow_filter_delete]
  · exact heapGet_heapSet_self _ _ _
  · simpa using assocFind_filter_self n s.allMap

/-- Witness for C5 at a concrete state: deleting the persisted review with
id 1 succeeds, after which `find_by_id 1` returns `None`. -/
theorem C5_delete_postcondition_witness :
    ∃ s', Review.delete 0 exPersisted = (.ok (), s') ∧
      (Review.find_by_id 1 s').1 = .ok none ∧
      heapGet s' 0 = some (ReviewObj.mk none (.vInt 2023) (.vStr "ok") (.vInt 1)) ∧
      assocFind 1 s'.allMap = none :=
  C5_delete_postcondition exPersisted 0
    (ReviewObj.mk (some 1) (.vInt 2023) (.vStr "ok") (.vInt 1)) 1 rfl rfl (by decide)

/-- C8: `save()` is not idempotent.  Calling it on an already-persisted
Review (non-null id `n`, resident in the identity map, with a matching row)
inserts a second row keyed by the fresh store-generated id
`freshRowId s ≠ n`, reassigns the object's id to that second key, and
leaves both map keys pointing at the same object — whose id now matches
only the second key, so the entry under `n` has lost its link. -/
theorem C8_save_not_idempotent (s : State) (r : Nat) (o : ReviewObj) (n : Nat)
    (hr : heapGet s r = some o) (hid : o.id = some n)
    (hrow : (findRow n s.rows).isSome = true) (hm : assocFind n s.allMap = some r) :
    ∃ s', Review.save r s = (.ok (), s') ∧ freshRowId s ≠ n ∧
      s'.rows = s.rows ++ [Row.mk (freshRowId s) o.year o.summ o.employee_id] ∧
      s'.rows.length = s.rows.length + 1 ∧
      heapGet s' r = some (ReviewObj.mk (some (freshRowId s)) o.year o.summ o.employee_id) ∧
      assocFind (freshRowId s) s'.allMap = some r ∧
      assocFind n s'.allMap = some r ∧
      some (freshRowId s) ≠ o.id := by
  have hle : n ≤ maxRowId s.rows := findRow_isSome_le hrow
  have hne : freshRowId s ≠ n := by
    unfold freshRowId
    omega
  refine ⟨State.mk (s.rows ++ [Row.mk (freshRowId s) o.year o.summ o.employee_id])
      ((r, ReviewObj.mk (some (freshRowId s)) o.year o.summ o.employee_id) :: s.heap)
      s.nextRef ((freshRowId s, r) :: s.allMap) s.emps, ?_, hne, rfl, by simp, ?_, ?_, ?_, ?_⟩
  · simp [Review.save, hr, heapSet]
  · simp [heapGet]
  · simp
  · simp [hne, hm]
  · rw [hid]
    simp [hne]

/-- Witness for C8 at a concrete state: saving the already-persisted review
(row id 1) again inserts row 2 and leaves both map keys on reference 0. -/
theorem C8_save_not_idempotent_witness :
    ∃ s', Review.save 0 exPersisted = (.ok (), s') ∧ freshRowId exPersisted ≠ 1 ∧
      s'.rows = exPersisted.rows ++
        [Row.mk (freshRowId exPersisted) (.vInt 2023) (.vStr "ok") (.vInt 1)] ∧
      s'.rows.length = exPersisted.rows.length + 1 ∧
      heapGet s' 0 = some (ReviewObj.mk (some (freshRowId exPersisted)) (.vInt 2023)
        (.vStr "ok") (.vInt 1)) ∧
      assocFind (freshRowId exPersisted) s'.allMap = some 0 ∧
      assocFind 1 s'.allMap = some 0 ∧
      some (freshRowId exPersisted) ≠
        (ReviewObj.mk (some 1) (.vInt 2023) (.vStr "ok") (.vInt 1)).id :=
  C8_save_not_idempotent exPersisted 0
    (ReviewObj.mk (some 1) (.vInt 2023) (.vStr "ok") (.vInt 1)) 1 rfl rfl (by decide) rfl

/-- C1: for valid inputs (year an int `≥ 2000`, non-empty string summary,
employee id resolvable through `Employee.find_by_id`), `create` returns a
reference to an object whose id is non-null, and `find_by_id` on that id
returns the reference-identical object. -/
theorem C1_create_find_roundtrip (s : State) (y sm e : Value)
    (hy : validYear y = true) (hsm : validSumm sm = true) (he : validEmp s.emps e = true) :
    ∃ r n, (Review.create y sm e s).1 = .ok r ∧
      heapGet (Review.create y sm e s).2 r = some (ReviewObj.mk (some n) y sm e) ∧
      (Review.find_by_id n (Review.create y sm e s).2).1 = .ok (some r) := by
  have hcreate : Review.create y sm e s =
      (.ok s.nextRef,
        State.mk (s.rows ++ [Row.mk (freshRowId s) y sm e])
          ((s.nextRef, ReviewObj.mk (some (freshRowId s)) y sm e)
            :: (s.nextRef, ReviewObj.mk none y sm e) :: s.heap)
          (s.nextRef + 1) ((freshRowId s, s.nextRef) :: s.allMap) s.emps) := by
    simp [Review.create, Review.init, setYear, setSumm, setEmp, hy, hsm, he,
      bind, Except.bind, pure, Except.pure, Review.save, heapGet, heapSet, freshRowId]
  refine ⟨s.nextRef, freshRowId s, ?_, ?_, ?_⟩
  · rw [hcreate]
  · rw [hcreate]
    simp [heapGet]
  · rw [hcreate]
    have hnone : findRow (freshRowId s) s.rows = none := by
      refine findRow_gt_none ?_
      unfold freshRowId
      omega
    have hfr : findRow (freshRowId s) (s.rows ++ [Row.mk (freshRowId s) y sm e]) =
        some (Row.mk (freshRowId s) y sm e) := by
      rw [findRow_append_none _ hnone]
      simp
    simp [Review.find_by_id, hfr, Review.instance_from_db, assignYear, assignSumm,
      assignEmp, heapGet, heapSet, setYear, setSumm, setEmp, hy, hsm, he]

/-- Witness for C1 at a concrete state: creating a valid review in the fresh
world yields an object with a non-null id that `find_by_id` returns again. -/
theorem C1_create_find_roundtrip_witness :
    ∃ r n, (Review.create (.vInt 2023) (.vStr "ok") (.vInt 1) exEmpty).1 = .ok r ∧
      heapGet (Review.create (.vInt 2023) (.vStr "ok") (.vInt 1) exEmpty).2 r =
        some (ReviewObj.mk (some n) (.vInt 2023) (.vStr "ok") (.vInt 1)) ∧
      (Review.find_by_id n (Review.create (.vInt 2023) (.vStr "ok") (.vInt 1) exEmpty).2).1 =
        .ok (some r) :=
  C1_create_find_roundtrip exEmpty (.vInt 2023) (.vStr "ok") (.vInt 1) rfl rfl rfl

/-- C3: read is idempotent on object identity.  Fetching a persisted id
twice returns the same reference both times; moreover (third conjunct),
whenever that id is resident in the identity map, reifying the then-current
row — even one externally mutated to new valid values — returns the same
reference, updates it to the latest row values, and allocates nothing: the
allocator and the map are returned unchanged. -/
theorem C3_find_by_id_idempotent (s : State) (n : Nat) (row : Row)
    (hwf : WFmap s) (hrow : findRow n s.rows = some row)
    (hy : validYear row.year = true) (hsm : validSumm row.summ = true)
    (he : validEmp s.emps row.employee_id = true) :
    ∃ r s₁, Review.find_by_id n s = (.ok (some r), s₁) ∧
      (Review.find_by_id n s₁).1 = .ok (some r) ∧
      (∀ t row', t.emps = s.emps → WFmap t → assocFind row'.id t.allMap = some r →
        validYear row'.year = true → validSumm row'.summ = true →
        validEmp t.emps row'.employee_id = true →
        ∃ t', Review.instance_from_db row' t = (.ok r, t') ∧
          (∃ o', heapGet t' r = some o' ∧ o'.year = row'.year ∧ o'.summ = row'.summ ∧
            o'.employee_id = row'.employee_id) ∧
          t'.nextRef = t.nextRef ∧ t'.allMap = t.allMap) := by
  obtain ⟨r, s₁, heq, hrows, hemps, hwf₁, hres, hobj, hpres, hresid⟩ :=
    instance_from_db_ok s row hwf hy hsm he
  have haux : ∀ t row', t.emps = s.emps → WFmap t → assocFind row'.id t.allMap = some r →
      validYear row'.year = true → validSumm row'.summ = true →
      validEmp t.emps row'.employee_id = true →
      ∃ t', Review.instance_from_db row' t = (.ok r, t') ∧
        (∃ o', heapGet t' r = some o' ∧ o'.year = row'.year ∧ o'.summ = row'.summ ∧
          o'.employee_id = row'.employee_id) ∧
        t'.nextRef = t.nextRef ∧ t'.allMap = t.allMap := by
    intro t row' _ hwft hmapt hy' hsm' he'
    obtain ⟨r', t', heq', _, _, _, _, hobj', _, hresid'⟩ :=
      instance_from_db_ok t row' hwft hy' hsm' he'
    obtain ⟨hr', hnext, hmap'⟩ := hresid' r hmapt
    subst hr'
    exact ⟨t', heq', hobj', hnext, hmap'⟩
  refine ⟨r, s₁, ?_, ?_, haux⟩
  · simp [Review.find_by_id, hrow, heq]
  · have hrow₁ : findRow n s₁.rows = some row := by
      rw [hrows]
      exact hrow
    obtain ⟨t', heq', _, _, _⟩ :=
      haux s₁ row hemps hwf₁ hres hy hsm (by rw [hemps]; exact he)
    simp [Review.find_by_id, hrow₁, heq']

/-- Witness for C3 at a concrete state: fetching the never-yet-reified row
with id 5 twice yields the same reference both times. -/
theorem C3_find_by_id_idempotent_witness :
    ∃ r s₁, Review.find_by_id 5 exRowOnly = (.ok (some r), s₁) ∧
      (Review.find_by_id 5 s₁).1 = .ok (some r) := by
  obtain ⟨r, s₁, h1, h2, _⟩ := C3_find_by_id_idempotent exRowOnly 5
    (Row.mk 5 (.vInt 2023) (.vStr "ok") (.vInt 1)) (by decide) rfl rfl rfl rfl
  exact ⟨r, s₁, h1, h2⟩

/-- C4: round-trip of update.  For a persisted Review (live object, id `n`,
matching row present) whose fields hold valid values, `update()` succeeds
and a subsequent `find_by_id n` returns an object whose year, summary and
employee id equal the object's current (mutated) values. -/
theorem C4_update_roundtrip (s : State) (r : Nat) (o : ReviewObj) (n : Nat)
    (hwf : WFmap s) (hr : heapGet s r = some o) (hid : o.id = some n)
    (hrow : (findRow n s.rows).isSome = true)
    (hy : validYear o.year = true) (hsm : validSumm o.summ = true)
    (he : validEmp s.emps o.employee_id = true) :
    ∃ s₁ r' s₂ o', Review.update r s = (.ok (), s₁) ∧
      Review.find_by_id n s₁ = (.ok (some r'), s₂) ∧
      heapGet s₂ r' = some o' ∧ o'.year = o.year ∧ o'.summ = o.summ ∧
      o'.employee_id = o.employee_id := by
  obtain ⟨row₀, hrow₀⟩ := Option.isSome_iff_exists.mp hrow
  have hid₀ : row₀.id = n := findRow_eq_id hrow₀
  have hf : ∀ rw : Row,
      ((fun rw => if some rw.id = o.id then
        Row.mk rw.id o.year o.summ o.employee_id else rw) rw).id = rw.id := by
    intro rw
    by_cases h : some rw.id = o.id <;> simp [h]
  have hfr : findRow n (s.rows.map (fun rw => if some rw.id = o.id then
      Row.mk rw.id o.year o.summ o.employee_id else rw)) =
      some (Row.mk n o.year o.summ o.employee_id) := by
    rw [findRow_map_of_id_eq _ _ hf, hrow₀]
    simp [hid₀, hid]
  obtain ⟨r', s₂, heq, _, _, _, _, hobj, _, _⟩ :=
    instance_from_db_ok
      { s with rows := s.rows.map (fun rw => if some rw.id = o.id then
          Row.mk rw.id o.year o.summ o.employee_id else rw) }
      (Row.mk n o.year o.summ o.employee_id) hwf hy hsm he
  obtain ⟨o', ho', hoy, hos, hoe⟩ := hobj
  refine ⟨{ s with rows := s.rows.map (fun rw => if some rw.id = o.id then
      Row.mk rw.id o.year o.summ o.employee_id else rw) }, r', s₂, o', ?_, ?_,
      ho', hoy, hos, hoe⟩
  · simp [Review.update, hr]
  · simp [Review.find_by_id, hfr, heq]

/-- Witness for C4 at a concrete state: updating the persisted review with
id 1 and fetching it back yields its current field values. -/
theorem C4_update_roundtrip_witness :
    ∃ s₁ r' s₂ o', Review.update 0 exPersisted = (.ok (), s₁) ∧
      Review.find_by_id 1 s₁ = (.ok (some r'), s₂) ∧
      heapGet s₂ r' = some o' ∧ o'.year = Value.vInt 2023 ∧
      o'.summ = Value.vStr "ok" ∧ o'.employee_id = Value.vInt 1 :=
  C4_update_roundtrip exPersisted 0
    (ReviewObj.mk (some 1) (.vInt 2023) (.vStr "ok") (.vInt 1)) 1
    (by decide) rfl rfl (by decide) rfl rfl rfl

/-- C6 counterexample: the claim quantifies over every state of the reviews
table, but on a table whose row stores year 1999 (storable, since the schema
has no CHECK constraint) `get_all()` raises `ValueError` from the `year`
setter inside `instance_from_db` instead of returning a collection, because
the list comprehension assigns row values through the property setters. -/
theorem C6_get_all_counterexample :
    (Review.get_all exBadYearRow).1 = .error "Year must be an integer >= 2000" := rfl

/-- Auxiliary induction for C6: mapping a list of rows whose values all pass
the setters reifies every row, preserving table, employee set, map
well-formedness, and goodness of every live reference. -/
theorem getAllAux_ok (L : List Row) : ∀ s : State, WFmap s →
    (∀ rw ∈ L, validYear rw.year = true ∧ validSumm rw.summ = true ∧
      validEmp s.emps rw.employee_id = true) →
    ∃ l s', getAllAux L s = (.ok l, s') ∧ l.length = L.length ∧
      s'.emps = s.emps ∧ s'.rows = s.rows ∧ WFmap s' ∧
      (∀ r ∈ l, goodRef s.emps s' r) ∧
      (∀ r, goodRef s.emps s r → goodRef s.emps s' r) := by
  induction L with
  | nil =>
    intro s hwf _
    exact ⟨[], s, rfl, rfl, rfl, rfl, hwf, by simp, fun r h => h⟩
  | cons row rest ih =>
    intro s hwf hv
    obtain ⟨hy, hsm, he⟩ := hv row (List.mem_cons_self row rest)
    obtain ⟨r, s₁, heq, hrows, hemps, hwf₁, _, hobj, hpres, _⟩ :=
      instance_from_db_ok s row hwf hy hsm he
    have hv₁ : ∀ rw ∈ rest, validYear rw.year = true ∧ validSumm rw.summ = true ∧
        validEmp s₁.emps rw.employee_id = true := by
      intro rw hm
      rw [hemps]
      exact hv rw (List.mem_cons_of_mem _ hm)
    obtain ⟨l, s₂, heq₂, hlen, hemps₂, hrows₂, hwf₂, hgood, hpres₂⟩ := ih s₁ hwf₁ hv₁
    rw [hemps] at hgood hpres₂
    refine ⟨r :: l, s₂, ?_, by simp [hlen], hemps₂.trans hemps, hrows₂.trans hrows,
      hwf₂, ?_, fun r' hg => hpres₂ r' (hpres r' hg)⟩
    · simp [getAllAux, heq, heq₂]
    · intro r' hr'
      rcases List.mem_cons.mp hr' with h | h
      · subst h
        refine hpres₂ r' ?_
        obtain ⟨o', ho', h1, h2, h3⟩ := hobj
        exact ⟨o', ho', by rw [h1]; exact hy, by rw [h2]; exact hsm, by rw [h3]; exact he⟩
      · exact hgood r' h

/-- C6 as amended: when every row of the table holds values that pass the
setters with respect to the current employee set (and the identity map is
well-formed), `get_all()` returns a list whose length equals the number of
rows, each element reified through `instance_from_db`, and every returned
element satisfies the field invariants. -/
theorem C6_get_all_ok_on_valid_rows (s : State) (hwf : WFmap s)
    (hv : ∀ rw ∈ s.rows, validYear rw.year = true ∧ validSumm rw.summ = true ∧
      validEmp s.emps rw.employee_id = true) :
    ∃ l s', Review.get_all s = (.ok l, s') ∧ l.length = s.rows.length ∧
      ∀ r ∈ l, ∃ o, heapGet s' r = some o ∧ validYear o.year = true ∧
        validSumm o.summ = true ∧ validEmp s.emps o.employee_id = true := by
  obtain ⟨l, s', heq, hlen, _, _, _, hgood, _⟩ := getAllAux_ok s.rows s hwf hv
  exact ⟨l, s', heq, hlen, fun r hr => hgood r hr⟩

/-- Witness for the amended C6 at a concrete state: one valid row, so
`get_all` returns one element satisfying the invariants. -/
theorem C6_get_all_ok_on_valid_rows_witness :
    ∃ l s', Review.get_all exRowOnly = (.ok l, s') ∧
      l.length = exRowOnly.rows.length ∧
      ∀ r ∈ l, ∃ o, heapGet s' r = some o ∧ validYear o.year = true ∧
        validSumm o.summ = true ∧ validEmp exRowOnly.emps o.employee_id = true :=
  C6_get_all_ok_on_valid_rows exRowOnly (by decide) (by decide)

/-- C7 counterexample: the claim says loading a persisted Review after its
referenced Employee was deleted succeeds without re-running the lookup; in
the code `instance_from_db` assigns `employee_id` through its setter, which
calls `Employee.find_by_id` again, so `find_by_id` raises `ValueError` on
the cached review once employee 1 is gone. -/
theorem C7_load_after_employee_delete_counterexample :
    (Review.find_by_id 1 exEmpDeleted).1 =
      .error "employee_id must reference an existing Employee id" := rfl

/-- Auxiliary for C7: reifying any row whose employee id no longer resolves
raises (from one of the setters), and the raise leaves the reviews table
unchanged — the employee deletion has no cascading effect on the row. -/
theorem instance_from_db_emp_missing (s : State) (row : Row)
    (he : validEmp s.emps row.employee_id = false) :
    ∃ msg s', Review.instance_from_db row s = (.error msg, s') ∧ s'.rows = s.rows := by
  unfold Review.instance_from_db
  cases hmap : assocFind row.id s.allMap with
  | some r =>
    cases hg : heapGet s r with
    | none => exact ⟨"AttributeError", s, by simp [assignYear, hg], rfl⟩
    | some o =>
      cases hy : validYear row.year with
      | false =>
        exact ⟨"Year must be an integer >= 2000", s,
          by simp [assignYear, hg, setYear, hy], rfl⟩
      | true =>
        cases hsm : validSumm row.summ with
        | false =>
          exact ⟨"Summary must be a non-empty string",
            heapSet s r (ReviewObj.mk o.id row.year o.summ o.employee_id),
            by simp [assignYear, assignSumm, hg, setYear, setSumm, hy, hsm], by simp⟩
        | true =>
          exact ⟨"employee_id must reference an existing Employee id",
            heapSet (heapSet s r (ReviewObj.mk o.id row.year o.summ o.employee_id)) r
              (ReviewObj.mk o.id row.year row.summ o.employee_id),
            by simp [assignYear, assignSumm, assignEmp, hg, setYear, setSumm, setEmp,
              hy, hsm, he], by simp⟩
  | none =>
    cases hy : validYear row.year with
    | false =>
      exact ⟨"Year must be an integer >= 2000", s,
        by simp [Review.init, setYear, hy, bind, Except.bind], rfl⟩
    | true =>
      cases hsm : validSumm row.summ with
      | false =>
        exact ⟨"Summary must be a non-empty string", s,
          by simp [Review.init, setYear, setSumm, hy, hsm, bind, Except.bind], rfl⟩
      | true =>
        exact ⟨"employee_id must reference an existing Employee id", s,
          by simp [Review.init, setYear, setSumm, setEmp, hy, hsm, he,
            bind, Except.bind], rfl⟩

/-- C7 as amended: the referential check IS re-run at every load.  Deleting
the referenced Employee leaves the review row itself untouched (no cascade:
the raising load returns the table unchanged), but a subsequent
`find_by_id` on that row raises instead of succeeding, because
`instance_from_db` assigns `employee_id` through its validating setter. -/
theorem C7_load_rechecks_employee (s : State) (n : Nat) (row : Row)
    (hrow : findRow n s.rows = some row)
    (he : validEmp s.emps row.employee_id = false) :
    ∃ msg s', Review.find_by_id n s = (.error msg, s') ∧ s'.rows = s.rows := by
  obtain ⟨msg, s', heq, hrows⟩ := instance_from_db_emp_missing s row he
  exact ⟨msg, s', by simp [Review.find_by_id, hrow, heq], hrows⟩

/-- Witness for the amended C7 at a concrete state: after employee 1 is
deleted, fetching the cached review with id 1 raises and the table keeps
its row. -/
theorem C7_load_rechecks_employee_witness :
    ∃ msg s', Review.find_by_id 1 exEmpDeleted = (.error msg, s') ∧
      s'.rows = exEmpDeleted.rows :=
  C7_load_rechecks_employee exEmpDeleted 1
    (Row.mk 1 (.vInt 2023) (.vStr "ok") (.vInt 1)) rfl rfl

end ORMLab
